import Mathlib

/-! Verification of the Ollama synthetic-data client (`ollama_client.py`).

Python strings are modelled as lists of characters (`Str`); the external
HTTP generation endpoint and the external JSON decoder (`json.loads`) are
oracles passed in as function parameters.  All definitions are translated
from the source file; line numbers in doc comments refer to
`src/ollama_client.py`. -/

/-- Python strings, modelled as lists of characters. -/
abbrev Str := List Char

/-- The whitespace characters removed by Python's default `str.strip()`. -/
def isPySpace (c : Char) : Bool :=
  c == ' ' || c == '\t' || c == '\n' || c == '\r' ||
    c == Char.ofNat 11 || c == Char.ofNat 12

/-- Remove characters satisfying `p` from both ends of `s`. -/
def stripBy (p : Char → Bool) (s : Str) : Str :=
  ((s.dropWhile p).reverse.dropWhile p).reverse

/-- Python `s.strip()`. -/
def pyStrip (s : Str) : Str := stripBy isPySpace s

/-- Python `s.strip(c)` for a one-character argument. -/
def pyStripChar (c : Char) (s : Str) : Str := stripBy (fun d => d == c) s

/-- Python `needle in hay` (substring test). -/
def pyIn (needle : Str) : Str → Bool
  | [] => needle.isPrefixOf []
  | c :: rest => needle.isPrefixOf (c :: rest) || pyIn needle rest

/-- Worker for `pySplitOn`: scan `s`, cutting at every occurrence of `sep`;
`acc` holds the current piece reversed.  Structural recursion on `fuel`,
which `pySplitOn` sets to `s.length + 1`: every step consumes at least one
character of `s`, so the out-of-fuel branch is never reached from there. -/
def pySplitAux : Nat → Str → Str → Str → List Str
  | 0, _, _, acc => [acc.reverse]
  | fuel + 1, sep, s, acc =>
    if !sep.isEmpty && sep.isPrefixOf s then
      acc.reverse :: pySplitAux fuel sep (s.drop sep.length) []
    else
      match s with
      | [] => [acc.reverse]
      | c :: rest => pySplitAux fuel sep rest (c :: acc)

/-- Python `s.split(sep)` for a non-empty separator. -/
def pySplitOn (sep : Str) (s : Str) : List Str :=
  pySplitAux (s.length + 1) sep s []

/-- Python `sep.join(xs)`. -/
def pyJoin (sep : Str) : List Str → Str
  | [] => []
  | [x] => x
  | x :: y :: rest => x ++ sep ++ pyJoin sep (y :: rest)

/-- Python `s.lower()`. -/
def pyLower (s : Str) : Str := s.map Char.toLower

/-- Decimal rendering of a natural number (Python f-string interpolation). -/
def natStr (n : Nat) : Str := (Nat.repr n).data

def nlStr : Str := ['\n']

def dblNlStr : Str := ['\n', '\n']

def dotStr : Str := ['.']

def spaceStr : Str := [' ']

/-- The denylist of boilerplate phrases of `_parse_batch_response`
(lines 400-414). -/
def unwantedPatternsBatch : List Str :=
  [("I'm sorry for misunderstanding").data,
   ("I'm sorry for any confusion").data,
   ("as an AI model").data,
   ("as an AI Programming Assistant").data,
   ("designed to assist with computer science").data,
   ("specializing in computer science").data,
   ("Please note").data,
   ("(Note:").data,
   ("(Please note").data,
   ("Enhanced paragraphs:").data,
   ("Enhanced texts:").data,
   ("Output:").data,
   ("Result:").data]

/-- The denylist of `_generate_enhanced_text` (lines 506-520): same list with
the singular "Enhanced paragraph:" / "Enhanced text:" entries. -/
def unwantedPatternsSingle : List Str :=
  [("I'm sorry for misunderstanding").data,
   ("I'm sorry for any confusion").data,
   ("as an AI model").data,
   ("as an AI Programming Assistant").data,
   ("designed to assist with computer science").data,
   ("specializing in computer science").data,
   ("Please note").data,
   ("(Note:").data,
   ("(Please note").data,
   ("Enhanced paragraph:").data,
   ("Enhanced text:").data,
   ("Output:").data,
   ("Result:").data]

/-- Lines of `response`, each stripped, dropping empty lines and lines that
contain a denylisted phrase, case-insensitively (lines 417-422 / 523-528). -/
def cleanedLinesOf (patterns : List Str) (response : Str) : List Str :=
  (pySplitOn nlStr response).filterMap fun line =>
    let line := pyStrip line
    if line.isEmpty then none
    else if patterns.any (fun p => pyIn (pyLower p) (pyLower line)) then none
    else some line

/-- `line and line[0].isdigit() and '.' in line[:3]` (lines 430 / 472). -/
def isNumberedLine (line : Str) : Bool :=
  match line with
  | [] => false
  | c :: _ => c.isDigit && pyIn dotStr (line.take 3)

/-- `line.split('.', 1)[1].strip() if '.' in line else line`
(lines 433 / 475). -/
def numberedItemStart (line : Str) : Str :=
  if pyIn dotStr line then
    pyStrip ((line.dropWhile (fun c => !(c == '.'))).drop 1)
  else line

/-- The numbered-line grouping of lines 428-440: `current` is the
`current_text` string accumulator. -/
def groupNumberedStr : List Str → Str → List Str
  | [], current =>
    if current.isEmpty then [] else [pyStrip current]
  | line :: rest, current =>
    if isNumberedLine line then
      (if current.isEmpty then [] else [pyStrip current]) ++
        groupNumberedStr rest (numberedItemStart line)
    else
      groupNumberedStr rest
        (if current.isEmpty then current else current ++ spaceStr ++ line)

/-- The numbered-line grouping of lines 466-480: `group` is the
`current_group` list accumulator. -/
def groupNumberedList : List Str → List Str → List Str
  | [], group =>
    if group.isEmpty then [] else [pyJoin spaceStr group]
  | line :: rest, group =>
    if isNumberedLine line then
      (if group.isEmpty then [] else [pyJoin spaceStr group]) ++
        groupNumberedList rest [numberedItemStart line]
    else
      groupNumberedList rest (group ++ [line])

/-- Step-2 grouping as invoked at line 428 (`current_text = ""`). -/
def groupLinesStep2 (lines : List Str) : List Str := groupNumberedStr lines []

/-- Final-fallback grouping as invoked at line 469 (`current_group = []`). -/
def groupLinesFinal (lines : List Str) : List Str := groupNumberedList lines []

/-- `[t.strip() for t in xs if t.strip()]` (lines 447 / 456 / 463 / 468). -/
def stripNonempty (xs : List Str) : List Str :=
  xs.filterMap fun t =>
    let t := pyStrip t
    if t.isEmpty then none else some t

def enhancedMarker : Str := ("Enhanced:").data

/-- The tail of `_parse_batch_response` (lines 460-482): re-split by blank
lines, then re-run the numbered grouping over the raw response. -/
def parseBatchFinal (response : Str) (expectedCount : Nat)
    (current : List Str) : List Str :=
  let current :=
    if current.length ≠ expectedCount then
      stripNonempty (pySplitOn dblNlStr response)
    else current
  if current.length ≠ expectedCount then
    groupLinesFinal (stripNonempty (pySplitOn nlStr response))
  else current

/-- `_parse_batch_response` (lines 385-482). -/
def parseBatchResponse (response : Str) (expectedCount : Nat) : List Str :=
  let response := pyStrip response
  let cleanedLines := cleanedLinesOf unwantedPatternsBatch response
  let enhanced1 := groupLinesStep2 cleanedLines
  if enhanced1.length = expectedCount then enhanced1
  else
    let enhanced2 := stripNonempty (pySplitOn dblNlStr response)
    if enhanced2.length = expectedCount then enhanced2
    else if pyIn enhancedMarker response then
      let parts := pySplitOn enhancedMarker response
      if parts.length > 1 then
        let enhancedPart := pyStrip (parts.getD 1 [])
        let enhanced3 := stripNonempty (pySplitOn nlStr enhancedPart)
        if enhanced3.length = expectedCount then enhanced3
        else parseBatchFinal response expectedCount enhanced3
      else parseBatchFinal response expectedCount enhanced2
    else parseBatchFinal response expectedCount enhanced2

/-- The fallback paragraph of `_generate_enhanced_text` (lines 535 / 540). -/
def enhanceFallback (originalText : Str) : Str :=
  ("Pursuant to the terms and conditions outlined in this healthcare policy document, ").data
    ++ originalText ++
    (". This provision shall remain in effect for the duration of the policy period and may be subject to review and modification as deemed necessary by the policy administrator.").data

/-- The prompt of `_generate_enhanced_text` (lines 494-496). -/
def enhancePrompt (originalText : Str) : Str :=
  ("Add contract-style sentences before and after this text to make it a complete paragraph: \"").data
    ++ originalText ++ ("\"\n\nOutput only the enhanced paragraph:").data

/-- The cleanup pipeline of `_generate_enhanced_text` (lines 501-531): strip
whitespace and quote characters, drop denylisted lines, join with spaces. -/
def cleanSingleResponse (response : Str) : Str :=
  let response := pyStripChar '\'' (pyStripChar '"' (pyStrip response))
  pyJoin spaceStr (cleanedLinesOf unwantedPatternsSingle response)

/-- `_generate_enhanced_text` (lines 484-540); `gw` stands for
`self.generate_response` specialised to non-streaming calls. -/
def generateEnhancedText (gw : Str → Str) (originalText : Str) : Str :=
  let response := gw (enhancePrompt originalText)
  if response.isEmpty then enhanceFallback originalText
  else
    let cleaned := cleanSingleResponse response
    if cleaned.isEmpty || decide (cleaned.length < 20) then
      enhanceFallback originalText
    else cleaned

/-- `batch_size = 5` (line 347). -/
def batchSize : Nat := 5

/-- `"\n".join(f"{batch_numbers[j]}. {text}" ...)` (line 354). -/
def numberedListing (numbers : List Nat) (batchTexts : List Str) : Str :=
  pyJoin nlStr
    (List.zipWith (fun n t => natStr n ++ (". ").data ++ t) numbers batchTexts)

/-- The batch prompt of `_generate_enhanced_texts_batch` (lines 352-360);
`startIdx` is the loop variable `i` and `total` is `len(original_texts)`. -/
def batchPrompt (startIdx total : Nat) (batchTexts : List Str) : Str :=
  ("Enhance these ").data ++ natStr batchTexts.length ++
    (" texts with contract-style filler sentences. Return exactly ").data ++
    natStr batchTexts.length ++ (" numbered responses:\n\n").data ++
    numberedListing
      (List.range' (startIdx + 1)
        (min (startIdx + batchSize + 1) (total + 1) - (startIdx + 1)))
      batchTexts ++
    ("\n\nEnhanced:").data

/-- One iteration of the batch loop (lines 362-381): generate, parse, and
fall back to per-item enhancement when the parse count is wrong or the
response is empty. -/
def processBatchChunk (gw : Str → Str) (startIdx total : Nat)
    (batchTexts : List Str) : List Str :=
  let response := gw (batchPrompt startIdx total batchTexts)
  if !response.isEmpty then
    let batchEnhanced := parseBatchResponse response batchTexts.length
    if batchEnhanced.length = batchTexts.length then batchEnhanced
    else batchTexts.map (generateEnhancedText gw)
  else batchTexts.map (generateEnhancedText gw)

/-- The `for i in range(0, len(original_texts), batch_size)` loop of
`_generate_enhanced_texts_batch` (lines 350-381). -/
def enhanceBatchLoop (gw : Str → Str) (total startIdx : Nat) :
    List Str → List Str
  | [] => []
  | t :: ts =>
    processBatchChunk gw startIdx total ((t :: ts).take batchSize) ++
      enhanceBatchLoop gw total (startIdx + batchSize) ((t :: ts).drop batchSize)
termination_by ts => ts.length
decreasing_by
  simp [batchSize]
  omega

/-- `_generate_enhanced_texts_batch` (lines 336-383). -/
def generateEnhancedTextsBatch (gw : Str → Str) (originalTexts : List Str) :
    List Str :=
  enhanceBatchLoop gw originalTexts.length 0 originalTexts

/-- A decoded Python value, the result type of the external `json.loads`. -/
inductive PyVal where
  | vStr : Str → PyVal
  | vInt : Int → PyVal
  | vBool : Bool → PyVal
  | vNone : PyVal
  | vList : List PyVal → PyVal
  | vDict : List (Str × PyVal) → PyVal

mutual

/-- Python `repr` on decoded JSON values (string escaping is not modelled). -/
def pyRepr : PyVal → Str
  | .vStr s => '\'' :: s ++ ['\'']
  | .vInt n => (Int.repr n).data
  | .vBool true => ("True").data
  | .vBool false => ("False").data
  | .vNone => ("None").data
  | .vList items => '[' :: pyJoin ((", ").data) (pyReprList items) ++ [']']
  | .vDict entries =>
      Char.ofNat 123 ::
        pyJoin ((", ").data) (pyReprEntries entries) ++ [Char.ofNat 125]

/-- `repr` of each element of a list value. -/
def pyReprList : List PyVal → List Str
  | [] => []
  | v :: vs => pyRepr v :: pyReprList vs

/-- `repr` of each `key: value` entry of a dict value. -/
def pyReprEntries : List (Str × PyVal) → List Str
  | [] => []
  | (k, v) :: kvs =>
      (('\'' :: k ++ ['\'']) ++ ((": ").data) ++ pyRepr v) :: pyReprEntries kvs

end

/-- Python `str` on decoded JSON values. -/
def pyStr : PyVal → Str
  | .vStr s => s
  | v => pyRepr v

/-- Python `d.get(key, default)` on a decoded dict. -/
def dictGet (entries : List (Str × PyVal)) (key : Str) (default : PyVal) :
    PyVal :=
  match entries.lookup key with
  | some v => v
  | none => default

/-- A synthetic `{answer, text}` row, as built by the dict literal at
lines 309-312 / 319-322: an association list of string keys and values. -/
abbrev SynthRow := List (Str × Str)

def answerKey : Str := ("answer").data

def textKey : Str := ("text").data

/-- The dict literal `{"answer": a, "text": t}`. -/
def mkSynthRow (a t : Str) : SynthRow := [(answerKey, a), (textKey, t)]

/-- `f"value_{i}"` (lines 320 / 329). -/
def fallbackAnswer (i : Nat) : Str := ("value_").data ++ natStr i

/-- `f"Synthetic response {i} for {field_name_value}: {field_question_value}"`
(lines 321 / 330). -/
def fallbackText (fieldNameValue fieldQuestionValue : Str) (i : Nat) : Str :=
  ("Synthetic response ").data ++ natStr i ++ (" for ").data ++
    fieldNameValue ++ (": ").data ++ fieldQuestionValue

/-- A templated fallback row (lines 319-322 / 328-331). -/
def fallbackSynthRow (fieldNameValue fieldQuestionValue : Str) (i : Nat) :
    SynthRow :=
  mkSynthRow (fallbackAnswer i) (fallbackText fieldNameValue fieldQuestionValue i)

/-- The system instructions of `_generate_synthetic_for_one_question`
(lines 282-285). -/
def synthSystemInstructions : Str :=
  ("You generate realistic, diverse synthetic data answers for contract-like or enterprise datasets. Return strictly JSON only, no code fences, no commentary.").data

/-- The prompt of `_generate_synthetic_for_one_question` (lines 287-293). -/
def synthPrompt (fieldNameValue fieldQuestionValue : Str) (numRows : Nat) :
    Str :=
  synthSystemInstructions ++ ("\n\nTask: Generate ").data ++ natStr numRows ++
    (" diverse synthetic answers for the question below.\nEach item must be a JSON object with keys: 'answer' (short label) and 'text' (1-2 sentence description).\nQuestion (field_name=").data ++
    fieldNameValue ++ ("): ").data ++ fieldQuestionValue ++
    ("\n\nReturn a JSON array with exactly ").data ++ natStr numRows ++
    (" items.").data

/-- Python `s.find(c)`: index of the first occurrence, or -1. -/
def pyFindChar (c : Char) (s : Str) : Int :=
  match s.findIdx? (fun d => d == c) with
  | some i => (i : Int)
  | none => -1

/-- Python `s.rfind(c)`: index of the last occurrence, or -1. -/
def pyRFindChar (c : Char) (s : Str) : Int :=
  match s.reverse.findIdx? (fun d => d == c) with
  | some i => ((s.length : Int) - 1 - (i : Int))
  | none => -1

/-- The JSON extraction of `_generate_synthetic_for_one_question`
(lines 295-314): locate the bracketed block, decode it with the external
`loads` oracle (`none` models a decode exception), and coerce each dict item
to a `{answer, text}` row of stripped strings. -/
def extractSynthRows (loads : Str → Option PyVal) (raw : Str) :
    List SynthRow :=
  if raw.isEmpty then []
  else
    let rawStripped := pyStrip (pyStripChar (Char.ofNat 96) (pyStrip raw))
    let start := pyFindChar '[' rawStripped
    let stop := pyRFindChar ']' rawStripped
    if start ≠ -1 ∧ stop ≠ -1 ∧ stop > start then
      let jsonBlock :=
        (rawStripped.drop start.toNat).take (stop.toNat + 1 - start.toNat)
      match loads jsonBlock with
      | some (.vList parsed) =>
        parsed.filterMap fun item =>
          match item with
          | .vDict entries =>
            some (mkSynthRow
              (pyStrip (pyStr (dictGet entries answerKey (.vStr []))))
              (pyStrip (pyStr (dictGet entries textKey (.vStr [])))))
          | _ => none
      | _ => []
    else []

/-- `_generate_synthetic_for_one_question` (lines 274-334). -/
def generateSyntheticForOneQuestion (gw : Str → Str)
    (loads : Str → Option PyVal) (fieldNameValue fieldQuestionValue : Str)
    (numRows : Nat) : List SynthRow :=
  let raw := gw (synthPrompt fieldNameValue fieldQuestionValue numRows)
  let rows := extractSynthRows loads raw
  let rows :=
    if rows.isEmpty then
      (List.range' 1 numRows).map
        (fallbackSynthRow fieldNameValue fieldQuestionValue)
    else rows
  if rows.length > numRows then rows.take numRows
  else if rows.length < numRows then
    rows ++ (List.range' (rows.length + 1) (numRows - rows.length)).map
      (fallbackSynthRow fieldNameValue fieldQuestionValue)
  else rows

/-- The request payload built at lines 45-49. -/
structure GenPayload where
  model : Str
  prompt : Str
  stream : Bool

/-- Outcome of the external HTTP POST (lines 52-53): a transport-level
failure (any `requests` exception, including the one thrown by
`raise_for_status`) or a response body. -/
inductive HttpOutcome where
  | transportError : Str → HttpOutcome
  | body : Str → HttpOutcome

/-- Python truthiness of a decoded value (the `data.get('done', False)`
test at line 63). -/
def pyTruthy : PyVal → Bool
  | .vStr s => !s.isEmpty
  | .vInt n => n != 0
  | .vBool b => b
  | .vNone => false
  | .vList l => !l.isEmpty
  | .vDict d => !d.isEmpty

def responseKey : Str := ("response").data

def doneKey : Str := ("done").data

/-- The streaming loop of `generate_response` (lines 57-65).  `Except.error`
marks an uncaught Python exception (`TypeError` from `'response' in data` on
a non-container, or `AttributeError` from `.get` on a non-dict, or
`TypeError` from concatenating a non-string fragment); a `loads` failure is
the `json.JSONDecodeError` caught at line 74, which makes the whole call
return the empty string. -/
def streamLoop (loads : Str → Option PyVal) :
    List Str → Str → Except Str Str
  | [], acc => Except.ok acc
  | line :: rest, acc =>
    match loads line with
    | none => Except.ok []
    | some (.vDict entries) =>
      match entries.lookup responseKey with
      | some (.vStr s) =>
        if pyTruthy (dictGet entries doneKey (.vBool false)) then
          Except.ok (acc ++ s)
        else streamLoop loads rest (acc ++ s)
      | some _ => Except.error (("TypeError").data)
      | none =>
        if pyTruthy (dictGet entries doneKey (.vBool false)) then
          Except.ok acc
        else streamLoop loads rest acc
    | some _ => Except.error (("TypeError or AttributeError").data)

/-- `generate_response` (lines 34-76); `http` models `requests.post` plus
`raise_for_status`, and `loads` models JSON decoding of the body or of one
streamed line.  Transport failures and decode failures are caught and
collapse to `ok ""`; `Except.error` marks an uncaught Python exception. -/
def generateResponse (http : GenPayload → HttpOutcome)
    (loads : Str → Option PyVal) (modelName prompt : Str) (stream : Bool) :
    Except Str PyVal :=
  match http (GenPayload.mk modelName prompt stream) with
  | .transportError _ => Except.ok (.vStr [])
  | .body b =>
    if stream then
      match streamLoop loads ((pySplitOn nlStr b).filter
          (fun l => !l.isEmpty)) [] with
      | Except.ok s => Except.ok (.vStr s)
      | Except.error e => Except.error e
    else
      match loads b with
      | none => Except.ok (.vStr [])
      | some (.vDict entries) =>
        Except.ok (dictGet entries responseKey (.vStr []))
      | some _ => Except.error (("AttributeError").data)

/-- A CSV row from `csv.DictReader`: an association list from column name to
cell value. -/
abbrev CsvRow := List (Str × Str)

/-- `row['text']` (the `text` column is checked to exist at line 123). -/
def getText (row : CsvRow) : Str := (row.lookup textKey).getD []

/-- `rows[i]['text'] = enhanced_text` (line 149): replace the `text` entry,
leaving every other column unchanged. -/
def setText (row : CsvRow) (value : Str) : CsvRow :=
  row.map fun kv => if kv.1 = textKey then (kv.1, value) else kv

/-- The `zip(text_indices, enhanced_texts)` assignment loop (lines 148-149):
rows whose stripped `text` is non-empty receive the next enhanced text, in
order; all other rows are left untouched. -/
def applyEnhancedTexts : List CsvRow → List Str → List CsvRow
  | [], _ => []
  | row :: rest, enhanced =>
    if (pyStrip (getText row)).isEmpty then
      row :: applyEnhancedTexts rest enhanced
    else
      match enhanced with
      | [] => row :: applyEnhancedTexts rest []
      | e :: es => setText row e :: applyEnhancedTexts rest es

/-- The in-memory row transformation of `process_csv_with_filler_sentences`
(lines 130-155), between the CSV read and the CSV write. -/
def processCsvRows (gw : Str → Str) (rows : List CsvRow) : List CsvRow :=
  let textsToProcess := rows.filterMap fun row =>
    let t := pyStrip (getText row)
    if t.isEmpty then none else some t
  if textsToProcess.isEmpty then rows
  else applyEnhancedTexts rows (generateEnhancedTextsBatch gw textsToProcess)

theorem processBatchChunk_length (gw : Str → Str) (startIdx total : Nat)
    (batchTexts : List Str) :
    (processBatchChunk gw startIdx total batchTexts).length =
      batchTexts.length := by
  simp only [processBatchChunk]
  split
  · split
    · assumption
    · simp
  · simp

theorem enhanceBatchLoop_length (gw : Str → Str) :
    ∀ (n total startIdx : Nat) (ts : List Str), ts.length ≤ n →
      (enhanceBatchLoop gw total startIdx ts).length = ts.length := by
  intro n
  induction n with
  | zero =>
    intro total startIdx ts h
    have hts : ts = [] := List.eq_nil_of_length_eq_zero (Nat.le_zero.mp h)
    subst hts
    simp [enhanceBatchLoop]
  | succ n ih =>
    intro total startIdx ts h
    match ts with
    | [] => simp [enhanceBatchLoop]
    | t :: rest =>
      rw [enhanceBatchLoop, List.length_append, processBatchChunk_length,
        ih total (startIdx + batchSize) ((t :: rest).drop batchSize)
          (by simp only [List.length_drop, List.length_cons, batchSize]
              simp only [List.length_cons] at h
              omega)]
      simp only [List.length_take, List.length_drop, List.length_cons,
        batchSize]
      omega

/-- C1: for every gateway behaviour and every input list of texts,
`_generate_enhanced_texts_batch` returns exactly one output per input text,
and returns `[]` on the empty input. -/
theorem generateEnhancedTextsBatch_length_eq (gw : Str → Str)
    (texts : List Str) :
    (generateEnhancedTextsBatch gw texts).length = texts.length ∧
      generateEnhancedTextsBatch gw [] = [] := by
  constructor
  · exact enhanceBatchLoop_length gw texts.length texts.length 0 texts le_rfl
  · simp [generateEnhancedTextsBatch, enhanceBatchLoop]

/-- C2: for every gateway and JSON-decoder behaviour,
`_generate_synthetic_for_one_question` returns exactly `numRows` rows, and
returns `[]` when zero rows are requested. -/
theorem generateSyntheticForOneQuestion_length_eq (gw : Str → Str)
    (loads : Str → Option PyVal) (fieldNameValue fieldQuestionValue : Str)
    (numRows : Nat) :
    (generateSyntheticForOneQuestion gw loads fieldNameValue
        fieldQuestionValue numRows).length = numRows ∧
      generateSyntheticForOneQuestion gw loads fieldNameValue
        fieldQuestionValue 0 = [] := by
  have aux : ∀ (m : Nat) (L : List SynthRow),
      (if L.length > m then L.take m
       else if L.length < m then
         L ++ (List.range' (L.length + 1) (m - L.length)).map
           (fallbackSynthRow fieldNameValue fieldQuestionValue)
       else L).length = m := by
    intro m L
    split
    · next hgt =>
      simp only [List.length_take]
      omega
    · next hle =>
      split
      · next hlt =>
        simp only [List.length_append, List.length_map, List.length_range']
        omega
      · next hge =>
        omega
  have h : ∀ m, (generateSyntheticForOneQuestion gw loads fieldNameValue
      fieldQuestionValue m).length = m := by
    intro m
    simp only [generateSyntheticForOneQuestion]
    exact aux m _
  exact ⟨h numRows, List.length_eq_zero.mp (h 0)⟩

/-- C8: the batch response parser is a pure function of the raw response
string and the expected count: equal inputs give equal outputs. -/
theorem parseBatchResponse_deterministic (r₁ r₂ : Str) (n₁ n₂ : Nat)
    (hr : r₁ = r₂) (hn : n₁ = n₂) :
    parseBatchResponse r₁ n₁ = parseBatchResponse r₂ n₂ := by
  subst hr
  subst hn
  rfl

theorem parseBatchResponse_deterministic_witness :
    parseBatchResponse (("x").data) 1 = parseBatchResponse (("x").data) 1 :=
  parseBatchResponse_deterministic (("x").data) (("x").data) 1 1 rfl rfl

/-- C3: whenever the batch parser returns a list whose length differs from
the chunk size, the orchestrator discards the batch result and enhances each
item of the chunk individually, in original order, so the chunk contributes
exactly chunk-size outputs. -/
theorem processBatchChunk_fallback_of_parse_mismatch (gw : Str → Str)
    (startIdx total : Nat) (batchTexts : List Str)
    (h : (parseBatchResponse (gw (batchPrompt startIdx total batchTexts))
        batchTexts.length).length ≠ batchTexts.length) :
    processBatchChunk gw startIdx total batchTexts =
        batchTexts.map (generateEnhancedText gw) ∧
      (processBatchChunk gw startIdx total batchTexts).length =
        batchTexts.length := by
  refine ⟨?_, processBatchChunk_length gw startIdx total batchTexts⟩
  simp only [processBatchChunk]
  split
  · rfl
  · rfl

/-- A gateway that answers every prompt with one unstructured paragraph. -/
def unstructuredGw : Str → Str := fun _ =>
  ("Just a plain unstructured answer with no numbering at all.").data

def threeTexts : List Str := [("a").data, ("b").data, ("c").data]

theorem processBatchChunk_fallback_witness :
    processBatchChunk unstructuredGw 0 3 threeTexts =
        threeTexts.map (generateEnhancedText unstructuredGw) ∧
      (processBatchChunk unstructuredGw 0 3 threeTexts).length = 3 :=
  processBatchChunk_fallback_of_parse_mismatch unstructuredGw 0 3 threeTexts
    (by decide)

/-- C6: the single-item enhancer always returns a non-empty string; when the
gateway returns the empty string, or the cleaned result is empty or shorter
than 20 characters, it returns the fixed fallback template, which contains
the original text verbatim. -/
theorem generateEnhancedText_spec (gw : Str → Str) (originalText : Str) :
    generateEnhancedText gw originalText ≠ [] ∧
      ((gw (enhancePrompt originalText) = [] ∨
          cleanSingleResponse (gw (enhancePrompt originalText)) = [] ∨
          (cleanSingleResponse (gw (enhancePrompt originalText))).length < 20) →
        generateEnhancedText gw originalText = enhanceFallback originalText) ∧
      originalText <:+: enhanceFallback originalText := by
  have hinfix : originalText <:+: enhanceFallback originalText := by
    unfold enhanceFallback
    exact ⟨_, _, rfl⟩
  have hfb : enhanceFallback originalText ≠ [] := by
    unfold enhanceFallback
    intro hnil
    rcases List.append_eq_nil.mp hnil with ⟨h1, _⟩
    rcases List.append_eq_nil.mp h1 with ⟨h2, _⟩
    exact absurd h2 (by decide)
  simp only [generateEnhancedText]
  split
  · next hresp => exact ⟨hfb, fun _ => rfl, hinfix⟩
  · next hresp =>
    split
    · next hcond => exact ⟨hfb, fun _ => rfl, hinfix⟩
    · next hcond =>
      simp only [Bool.or_eq_true, List.isEmpty_iff, decide_eq_true_eq,
        not_or] at hcond
      refine ⟨hcond.1, fun hd => ?_, hinfix⟩
      rcases hd with hd | hd | hd
      · rw [hd] at hresp
        simp at hresp
      · exact absurd hd hcond.1
      · exact absurd hd hcond.2

/-- A gateway that always returns the empty string. -/
def emptyGw : Str → Str := fun _ => []

theorem generateEnhancedText_spec_witness :
    generateEnhancedText emptyGw (("abc").data) =
      enhanceFallback (("abc").data) :=
  (generateEnhancedText_spec emptyGw (("abc").data)).2.1 (Or.inl rfl)

/-- C5: a transport failure, or an undecodable payload (non-streaming body or
first streamed line), is caught inside `generate_response` and collapses to
the empty string; none of these failures surfaces as an exception. -/
theorem generateResponse_failure_empty (http : GenPayload → HttpOutcome)
    (loads : Str → Option PyVal) (modelName prompt : Str) (stream : Bool) :
    (∀ msg, http (GenPayload.mk modelName prompt stream) =
          HttpOutcome.transportError msg →
        generateResponse http loads modelName prompt stream =
          Except.ok (PyVal.vStr [])) ∧
      (∀ b, http (GenPayload.mk modelName prompt stream) =
          HttpOutcome.body b → stream = false → loads b = none →
        generateResponse http loads modelName prompt stream =
          Except.ok (PyVal.vStr [])) ∧
      (∀ b l ls, http (GenPayload.mk modelName prompt stream) =
          HttpOutcome.body b → stream = true →
        (pySplitOn nlStr b).filter (fun x => !x.isEmpty) = l :: ls →
        loads l = none →
        generateResponse http loads modelName prompt stream =
          Except.ok (PyVal.vStr [])) := by
  refine ⟨?_, ?_, ?_⟩
  · intro msg hmsg
    unfold generateResponse
    rw [hmsg]
  · intro b hb hs hl
    subst hs
    unfold generateResponse
    rw [hb]
    simp [hl]
  · intro b l ls hb hs hfilter hl
    subst hs
    unfold generateResponse
    rw [hb]
    simp only [if_pos rfl]
    rw [hfilter]
    simp [streamLoop, hl]

/-- An endpoint that is unreachable for every request. -/
def transportHttp : GenPayload → HttpOutcome := fun _ =>
  HttpOutcome.transportError (("connection refused").data)

/-- An endpoint that answers every request with a non-JSON body. -/
def bodyHttp : GenPayload → HttpOutcome := fun _ =>
  HttpOutcome.body (("not json").data)

/-- A JSON decoder that fails on every input. -/
def failLoads : Str → Option PyVal := fun _ => none

theorem generateResponse_failure_witness :
    generateResponse transportHttp failLoads (("m").data) (("p").data) false =
        Except.ok (PyVal.vStr []) ∧
      generateResponse bodyHttp failLoads (("m").data) (("p").data) false =
        Except.ok (PyVal.vStr []) ∧
      generateResponse bodyHttp failLoads (("m").data) (("p").data) true =
        Except.ok (PyVal.vStr []) :=
  ⟨(generateResponse_failure_empty transportHttp failLoads (("m").data)
      (("p").data) false).1 _ rfl,
   (generateResponse_failure_empty bodyHttp failLoads (("m").data)
      (("p").data) false).2.1 _ rfl rfl rfl,
   (generateResponse_failure_empty bodyHttp failLoads (("m").data)
      (("p").data) true).2.2 (("not json").data) (("not json").data) []
      rfl rfl (by decide) rfl⟩

theorem dropWhile_self_dropWhile (p : Char → Bool) (l : Str) :
    (l.dropWhile p).dropWhile p = l.dropWhile p := by
  induction l with
  | nil => simp
  | cons c t ih =>
    rw [List.dropWhile_cons]
    split
    · exact ih
    · next hc => rw [List.dropWhile_cons, if_neg hc]

theorem dropWhile_eq_self_head (p : Char → Bool) (c : Char) (t : Str)
    (h : (c :: t).dropWhile p = c :: t) : p c = false := by
  by_contra hp
  have hp' : p c = true := by
    revert hp
    cases p c <;> simp
  rw [List.dropWhile_cons, if_pos hp'] at h
  have hle : (t.dropWhile p).length ≤ t.length :=
    (List.dropWhile_suffix p).length_le
  have hlen := congrArg List.length h
  simp only [List.length_cons] at hlen
  omega

theorem dropWhile_append_eq_self (p : Char → Bool) (a x : Str) (ha : a ≠ [])
    (h : a.dropWhile p = a) : (a ++ x).dropWhile p = a ++ x := by
  match a with
  | [] => exact absurd rfl ha
  | c :: t =>
    have hc := dropWhile_eq_self_head p c t h
    simp [List.dropWhile_cons, hc]

theorem pyStrip_eq_self_iff (s : Str) :
    pyStrip s = s ↔ s.dropWhile isPySpace = s ∧
      s.reverse.dropWhile isPySpace = s.reverse := by
  constructor
  · intro h
    have hlen : (pyStrip s).length = s.length := by rw [h]
    have hlen2 : (pyStrip s).length =
        ((s.dropWhile isPySpace).reverse.dropWhile isPySpace).length := by
      unfold pyStrip stripBy
      rw [List.length_reverse]
    have hle1 : ((s.dropWhile isPySpace).reverse.dropWhile isPySpace).length ≤
        (s.dropWhile isPySpace).length := by
      have := (List.dropWhile_suffix
        (l := (s.dropWhile isPySpace).reverse) isPySpace).length_le
      simpa using this
    have hle2 : (s.dropWhile isPySpace).length ≤ s.length :=
      (List.dropWhile_suffix isPySpace).length_le
    have hu : s.dropWhile isPySpace = s :=
      (List.dropWhile_suffix isPySpace).eq_of_length (by omega)
    refine ⟨hu, ?_⟩
    rw [hu] at hlen2
    exact (List.dropWhile_suffix isPySpace).eq_of_length
      (by rw [List.length_reverse]; omega)
  · intro h
    unfold pyStrip stripBy
    rw [h.1, h.2, List.reverse_reverse]

theorem pyStrip_idem (s : Str) : pyStrip (pyStrip s) = pyStrip s := by
  apply (pyStrip_eq_self_iff _).mpr
  constructor
  · show (pyStrip s).dropWhile isPySpace = pyStrip s
    unfold pyStrip stripBy
    rcases hcase :
        ((s.dropWhile isPySpace).reverse.dropWhile isPySpace).reverse with
      _ | ⟨c, t⟩
    · simp
    · have hpre : c :: t <+: s.dropWhile isPySpace := by
        rw [← hcase]
        have hsuf : (s.dropWhile isPySpace).reverse.dropWhile isPySpace <:+
            (s.dropWhile isPySpace).reverse := List.dropWhile_suffix _
        have := List.reverse_prefix.mpr hsuf
        simpa using this
      rcases hpre with ⟨r, hr⟩
      have hself : ((c :: t) ++ r).dropWhile isPySpace = (c :: t) ++ r := by
        rw [hr]
        exact dropWhile_self_dropWhile isPySpace s
      have hc : isPySpace c = false := by
        apply dropWhile_eq_self_head isPySpace c (t ++ r)
        simpa using hself
      rw [List.dropWhile_cons, if_neg (by simp [hc])]
  · show (pyStrip s).reverse.dropWhile isPySpace = (pyStrip s).reverse
    unfold pyStrip stripBy
    rw [List.reverse_reverse]
    exact dropWhile_self_dropWhile isPySpace (s.dropWhile isPySpace).reverse

theorem pyStrip_append_self (a m b : Str) (ha : a ≠ []) (hb : b ≠ [])
    (hsa : pyStrip a = a) (hsb : pyStrip b = b) :
    pyStrip (a ++ m ++ b) = a ++ m ++ b := by
  have h1 := (pyStrip_eq_self_iff a).mp hsa
  have h2 := (pyStrip_eq_self_iff b).mp hsb
  apply (pyStrip_eq_self_iff _).mpr
  constructor
  · rw [List.append_assoc]
    exact dropWhile_append_eq_self isPySpace a (m ++ b) ha h1.1
  · rw [List.reverse_append, List.reverse_append]
    exact dropWhile_append_eq_self isPySpace b.reverse
      (m.reverse ++ a.reverse) (by simpa using hb) h2.2

theorem pyJoin_append_singleton (sep : Str) (g : List Str) (x : Str)
    (hg : g ≠ []) :
    pyJoin sep (g ++ [x]) = pyJoin sep g ++ sep ++ x := by
  induction g with
  | nil => exact absurd rfl hg
  | cons a g ih =>
    match g with
    | [] => rfl
    | b :: t =>
      have hih := ih (by simp)
      calc pyJoin sep ((a :: b :: t) ++ [x])
          = a ++ sep ++ pyJoin sep ((b :: t) ++ [x]) := rfl
        _ = a ++ sep ++ (pyJoin sep (b :: t) ++ sep ++ x) := by rw [hih]
        _ = a ++ sep ++ pyJoin sep (b :: t) ++ sep ++ x := by
            simp [List.append_assoc]
        _ = pyJoin sep (a :: b :: t) ++ sep ++ x := rfl

theorem pyJoin_stripped (g : List Str) (hg : g ≠ [])
    (hall : ∀ x ∈ g, pyStrip x = x ∧ x ≠ []) :
    pyStrip (pyJoin spaceStr g) = pyJoin spaceStr g ∧
      pyJoin spaceStr g ≠ [] := by
  induction g with
  | nil => exact absurd rfl hg
  | cons a g ih =>
    have ha := hall a (List.mem_cons_self a g)
    match g with
    | [] => exact ⟨ha.1, ha.2⟩
    | b :: t =>
      have hrest := ih (by simp)
        (fun x hx => hall x (List.mem_cons_of_mem a hx))
      simp only [pyJoin]
      constructor
      · exact pyStrip_append_self a spaceStr (pyJoin spaceStr (b :: t))
          ha.2 hrest.2 ha.1 hrest.1
      · intro hnil
        rcases List.append_eq_nil.mp hnil with ⟨h1, _⟩
        rcases List.append_eq_nil.mp h1 with ⟨h2, _⟩
        exact ha.2 h2

theorem numberedItemStart_stripped (l : Str) (hl : pyStrip l = l) :
    pyStrip (numberedItemStart l) = numberedItemStart l := by
  unfold numberedItemStart
  split
  · exact pyStrip_idem _
  · exact hl

theorem groupAux_agree (ls : List Str) :
    ∀ g : List Str, g ≠ [] →
      (∀ x ∈ g, pyStrip x = x ∧ x ≠ []) →
      (∀ l ∈ ls, pyStrip l = l ∧ l ≠ []) →
      (∀ l ∈ ls, isNumberedLine l = true → numberedItemStart l ≠ []) →
      groupNumberedStr ls (pyJoin spaceStr g) = groupNumberedList ls g := by
  induction ls with
  | nil =>
    intro g hg hall _ _
    obtain ⟨hstr, hne⟩ := pyJoin_stripped g hg hall
    simp only [groupNumberedStr, groupNumberedList]
    rw [if_neg (by simpa [List.isEmpty_iff] using hne),
      if_neg (by simpa [List.isEmpty_iff] using hg), hstr]
  | cons l rest ih =>
    intro g hg hall hls hnum
    have hl := hls l (List.mem_cons_self l rest)
    obtain ⟨hstr, hne⟩ := pyJoin_stripped g hg hall
    simp only [groupNumberedStr, groupNumberedList]
    by_cases hn : isNumberedLine l = true
    · rw [if_pos hn, if_pos hn,
        if_neg (by simpa [List.isEmpty_iff] using hne),
        if_neg (by simpa [List.isEmpty_iff] using hg), hstr]
      have hstart := numberedItemStart_stripped l hl.1
      have hstartne : numberedItemStart l ≠ [] :=
        hnum l (List.mem_cons_self l rest) hn
      have hrec := ih [numberedItemStart l] (by simp)
        (by
          intro x hx
          rw [List.mem_singleton] at hx
          subst hx
          exact ⟨hstart, hstartne⟩)
        (fun x hx => hls x (List.mem_cons_of_mem l hx))
        (fun x hx => hnum x (List.mem_cons_of_mem l hx))
      simp only [pyJoin] at hrec
      rw [hrec]
    · rw [if_neg hn, if_neg hn,
        if_neg (by simpa [List.isEmpty_iff] using hne)]
      have hrec := ih (g ++ [l]) (by simp)
        (by
          intro x hx
          rcases List.mem_append.mp hx with hx | hx
          · exact hall x hx
          · rw [List.mem_singleton] at hx
            subst hx
            exact hl)
        (fun x hx => hls x (List.mem_cons_of_mem l hx))
        (fun x hx => hnum x (List.mem_cons_of_mem l hx))
      rw [pyJoin_append_singleton spaceStr g l hg] at hrec
      exact hrec

/-- C4 counterexample: on a single non-numbered line the step-2 grouping
returns no items (leading non-numbered lines are dropped because
`current_text` is still empty) while the final-fallback grouping keeps the
line as one item, so the two groupings are not the same function of their
input lines. -/
theorem groupLines_step2_ne_final :
    groupLinesStep2 [("hello").data] ≠ groupLinesFinal [("hello").data] := by
  decide

/-- C4 (amended): the step-2 grouping and the final-fallback grouping agree
on every list of stripped non-empty lines whose first line is numbered and
in which every numbered line has non-empty content after its first period;
they differ on leading non-numbered lines (dropped by step 2, kept by the
final fallback) and on numbered lines with empty content. -/
theorem groupLines_agree (lines : List Str)
    (hclean : ∀ l ∈ lines, pyStrip l = l ∧ l ≠ [])
    (hnum : ∀ l ∈ lines, isNumberedLine l = true → numberedItemStart l ≠ [])
    (hhead : lines.head?.all isNumberedLine = true) :
    groupLinesStep2 lines = groupLinesFinal lines := by
  match lines with
  | [] => rfl
  | l :: rest =>
    have hn : isNumberedLine l = true := by simpa using hhead
    have hl := hclean l (List.mem_cons_self l rest)
    unfold groupLinesStep2 groupLinesFinal
    simp only [groupNumberedStr, groupNumberedList]
    rw [if_pos hn, if_pos hn]
    simp only [List.isEmpty_nil, if_pos rfl, List.nil_append]
    have hstart := numberedItemStart_stripped l hl.1
    have hstartne : numberedItemStart l ≠ [] :=
      hnum l (List.mem_cons_self l rest) hn
    have hrec := groupAux_agree rest [numberedItemStart l] (by simp)
      (by
        intro x hx
        rw [List.mem_singleton] at hx
        subst hx
        exact ⟨hstart, hstartne⟩)
      (fun x hx => hclean x (List.mem_cons_of_mem l hx))
      (fun x hx => hnum x (List.mem_cons_of_mem l hx))
    simp only [pyJoin] at hrec
    exact hrec

def numberedLinesExample : List Str :=
  [("1. foo").data, ("bar").data, ("2. baz").data]

theorem groupLines_agree_witness :
    groupLinesStep2 numberedLinesExample =
      groupLinesFinal numberedLinesExample :=
  groupLines_agree numberedLinesExample (by decide) (by decide) (by decide)

theorem isEmpty_false_of_ne_nil {α : Type} {l : List α} (h : l ≠ []) :
    l.isEmpty = false := by
  cases l with
  | nil => exact absurd rfl h
  | cons a t => rfl

/-- C7: when JSON extraction yields `k` parsed rows with `k > n`, the
generator returns exactly the first `n` of them; when `0 < k < n`, it
returns the `k` parsed rows followed by `n - k` templated fallback rows
whose indices continue from `k + 1` to `n`. -/
theorem generateSynthetic_truncate_pad (gw : Str → Str)
    (loads : Str → Option PyVal) (fieldNameValue fieldQuestionValue : Str)
    (numRows : Nat) :
    ((extractSynthRows loads (gw (synthPrompt fieldNameValue
          fieldQuestionValue numRows))).length > numRows →
        generateSyntheticForOneQuestion gw loads fieldNameValue
            fieldQuestionValue numRows =
          (extractSynthRows loads (gw (synthPrompt fieldNameValue
            fieldQuestionValue numRows))).take numRows) ∧
      (0 < (extractSynthRows loads (gw (synthPrompt fieldNameValue
          fieldQuestionValue numRows))).length →
        (extractSynthRows loads (gw (synthPrompt fieldNameValue
          fieldQuestionValue numRows))).length < numRows →
        generateSyntheticForOneQuestion gw loads fieldNameValue
            fieldQuestionValue numRows =
          extractSynthRows loads (gw (synthPrompt fieldNameValue
              fieldQuestionValue numRows)) ++
            (List.range' ((extractSynthRows loads (gw (synthPrompt
                fieldNameValue fieldQuestionValue numRows))).length + 1)
              (numRows - (extractSynthRows loads (gw (synthPrompt
                fieldNameValue fieldQuestionValue numRows))).length)).map
              (fallbackSynthRow fieldNameValue fieldQuestionValue)) := by
  constructor
  · intro hgt
    have hne : (extractSynthRows loads (gw (synthPrompt fieldNameValue
        fieldQuestionValue numRows))) ≠ [] := by
      intro hnil
      rw [hnil] at hgt
      simp at hgt
    simp only [generateSyntheticForOneQuestion,
      isEmpty_false_of_ne_nil hne, Bool.false_eq_true, if_false]
    rw [if_pos hgt]
  · intro hpos hlt
    have hne : (extractSynthRows loads (gw (synthPrompt fieldNameValue
        fieldQuestionValue numRows))) ≠ [] := by
      intro hnil
      rw [hnil] at hpos
      simp at hpos
    simp only [generateSyntheticForOneQuestion,
      isEmpty_false_of_ne_nil hne, Bool.false_eq_true, if_false]
    rw [if_neg (by omega), if_pos hlt]

/-- A gateway whose answer contains a bracketed block. -/
def bracketGw : Str → Str := fun _ => ("[x]").data

/-- A decoder that always yields two `{answer, text}` objects. -/
def padLoads : Str → Option PyVal := fun _ =>
  some (PyVal.vList
    [PyVal.vDict [(answerKey, PyVal.vStr (("a1").data)),
      (textKey, PyVal.vStr (("t1").data))],
     PyVal.vDict [(answerKey, PyVal.vStr (("a2").data)),
      (textKey, PyVal.vStr (("t2").data))]])

/-- A decoder that always yields three `{answer, text}` objects. -/
def truncLoads : Str → Option PyVal := fun _ =>
  some (PyVal.vList
    [PyVal.vDict [(answerKey, PyVal.vStr (("a1").data)),
      (textKey, PyVal.vStr (("t1").data))],
     PyVal.vDict [(answerKey, PyVal.vStr (("a2").data)),
      (textKey, PyVal.vStr (("t2").data))],
     PyVal.vDict [(answerKey, PyVal.vStr (("a3").data)),
      (textKey, PyVal.vStr (("t3").data))]])

theorem generateSynthetic_truncate_pad_witness :
    generateSyntheticForOneQuestion bracketGw truncLoads (("f").data)
        (("q").data) 2 =
      (extractSynthRows truncLoads (bracketGw (synthPrompt (("f").data)
        (("q").data) 2))).take 2 ∧
    generateSyntheticForOneQuestion bracketGw padLoads (("f").data)
        (("q").data) 5 =
      extractSynthRows padLoads (bracketGw (synthPrompt (("f").data)
          (("q").data) 5)) ++
        (List.range' ((extractSynthRows padLoads (bracketGw (synthPrompt
            (("f").data) (("q").data) 5))).length + 1)
          (5 - (extractSynthRows padLoads (bracketGw (synthPrompt
            (("f").data) (("q").data) 5))).length)).map
          (fallbackSynthRow (("f").data) (("q").data)) :=
  ⟨(generateSynthetic_truncate_pad bracketGw truncLoads (("f").data)
      (("q").data) 2).1 (by decide),
   (generateSynthetic_truncate_pad bracketGw padLoads (("f").data)
      (("q").data) 5).2 (by decide) (by decide)⟩

theorem setText_map_fst (row : CsvRow) (v : Str) :
    (setText row v).map Prod.fst = row.map Prod.fst := by
  unfold setText
  rw [List.map_map]
  apply List.map_congr_left
  intro kv _
  simp only [Function.comp_apply]
  split <;> rfl

theorem mem_setText_of_ne (row : CsvRow) (v : Str) (kv : Str × Str)
    (hmem : kv ∈ row) (hne : kv.1 ≠ textKey) : kv ∈ setText row v := by
  unfold setText
  refine List.mem_map.mpr ⟨kv, hmem, ?_⟩
  rw [if_neg hne]

theorem applyEnhancedTexts_frame (rows : List CsvRow) :
    ∀ es : List Str,
      List.Forall₂ (fun r rr =>
        ((pyStrip (getText r)).isEmpty = true → rr = r) ∧
          ((∃ e, rr = setText r e) ∨ rr = r) ∧
          rr.map Prod.fst = r.map Prod.fst ∧
          (∀ kv ∈ r, kv.1 ≠ textKey → kv ∈ rr))
        rows (applyEnhancedTexts rows es) := by
  induction rows with
  | nil =>
    intro es
    exact List.Forall₂.nil
  | cons row rest ih =>
    intro es
    simp only [applyEnhancedTexts]
    split
    · exact List.Forall₂.cons
        ⟨fun _ => rfl, Or.inr rfl, rfl, fun kv hkv _ => hkv⟩ (ih es)
    · next hnotempty =>
      cases es with
      | nil =>
        exact List.Forall₂.cons
          ⟨fun _ => rfl, Or.inr rfl, rfl, fun kv hkv _ => hkv⟩ (ih [])
      | cons e es =>
        exact List.Forall₂.cons
          ⟨fun hh => absurd hh hnotempty, Or.inl ⟨e, rfl⟩,
            setText_map_fst row e,
            fun kv hkv hne => mem_setText_of_ne row e kv hkv hne⟩ (ih es)

/-- C9: the CSV enhancement path returns as many rows as it receives; a row
whose `text` value is empty or whitespace-only passes through unmodified,
and every row either is unchanged or only has its `text` entry replaced,
keeping all column names and every non-`text` cell. -/
theorem processCsvRows_frame (gw : Str → Str) (rows : List CsvRow) :
    (processCsvRows gw rows).length = rows.length ∧
      List.Forall₂ (fun r rr =>
        ((pyStrip (getText r)).isEmpty = true → rr = r) ∧
          ((∃ e, rr = setText r e) ∨ rr = r) ∧
          rr.map Prod.fst = r.map Prod.fst ∧
          (∀ kv ∈ r, kv.1 ≠ textKey → kv ∈ rr))
        rows (processCsvRows gw rows) := by
  have hforall : List.Forall₂ (fun r rr =>
      ((pyStrip (getText r)).isEmpty = true → rr = r) ∧
        ((∃ e, rr = setText r e) ∨ rr = r) ∧
        rr.map Prod.fst = r.map Prod.fst ∧
        (∀ kv ∈ r, kv.1 ≠ textKey → kv ∈ rr))
      rows (processCsvRows gw rows) := by
    simp only [processCsvRows]
    split
    · refine List.forall₂_same.mpr ?_
      intro r _
      exact ⟨fun _ => rfl, Or.inr rfl, rfl, fun kv hkv _ => hkv⟩
    · exact applyEnhancedTexts_frame rows _
  exact ⟨hforall.length_eq.symm, hforall⟩

def oneRow : CsvRow := [(textKey, ("hi").data)]

theorem processCsvRows_frame_witness :
    (processCsvRows unstructuredGw [oneRow]).length = 1 ∧
      List.Forall₂ (fun r rr =>
        ((pyStrip (getText r)).isEmpty = true → rr = r) ∧
          ((∃ e, rr = setText r e) ∨ rr = r) ∧
          rr.map Prod.fst = r.map Prod.fst ∧
          (∀ kv ∈ r, kv.1 ≠ textKey → kv ∈ rr))
        [oneRow] (processCsvRows unstructuredGw [oneRow]) :=
  processCsvRows_frame unstructuredGw [oneRow]

theorem mem_extractSynthRows (loads : Str → Option PyVal) (raw : Str)
    (x : SynthRow) (hx : x ∈ extractSynthRows loads raw) :
    ∃ a t, x = mkSynthRow a t ∧ pyStrip a = a ∧ pyStrip t = t := by
  simp only [extractSynthRows] at hx
  split at hx
  · simp at hx
  · split at hx
    · split at hx
      · next parsed heq =>
        rcases List.mem_filterMap.mp hx with ⟨item, _, hitem⟩
        cases item with
        | vDict entries =>
          simp only [Option.some.injEq] at hitem
          exact ⟨_, _, hitem.symm, pyStrip_idem _, pyStrip_idem _⟩
        | vStr s => simp at hitem
        | vInt n => simp at hitem
        | vBool b => simp at hitem
        | vNone => simp at hitem
        | vList l => simp at hitem
      · simp at hx
    · simp at hx

/-- C10: every row produced by `_generate_synthetic_for_one_question` is a
dict with exactly the keys `answer` and `text` and string values, either
coerced to stripped strings from a parsed JSON object or filled in from the
indexed fallback template. -/
theorem generateSynthetic_row_shape (gw : Str → Str)
    (loads : Str → Option PyVal) (fieldNameValue fieldQuestionValue : Str)
    (numRows : Nat) (r : SynthRow)
    (hr : r ∈ generateSyntheticForOneQuestion gw loads fieldNameValue
      fieldQuestionValue numRows) :
    ∃ a t, r = mkSynthRow a t ∧
      ((pyStrip a = a ∧ pyStrip t = t) ∨
        ∃ i, a = fallbackAnswer i ∧
          t = fallbackText fieldNameValue fieldQuestionValue i) := by
  have hmapcase : ∀ (l : List Nat) (y : SynthRow),
      y ∈ l.map (fallbackSynthRow fieldNameValue fieldQuestionValue) →
      ∃ a t, y = mkSynthRow a t ∧
        ((pyStrip a = a ∧ pyStrip t = t) ∨
          ∃ i, a = fallbackAnswer i ∧
            t = fallbackText fieldNameValue fieldQuestionValue i) := by
    intro l y hy
    rcases List.mem_map.mp hy with ⟨i, _, hi⟩
    exact ⟨fallbackAnswer i,
      fallbackText fieldNameValue fieldQuestionValue i,
      hi.symm, Or.inr ⟨i, rfl, rfl⟩⟩
  have hextractcase : ∀ y : SynthRow,
      y ∈ extractSynthRows loads (gw (synthPrompt fieldNameValue
        fieldQuestionValue numRows)) →
      ∃ a t, y = mkSynthRow a t ∧
        ((pyStrip a = a ∧ pyStrip t = t) ∨
          ∃ i, a = fallbackAnswer i ∧
            t = fallbackText fieldNameValue fieldQuestionValue i) := by
    intro y hy
    rcases mem_extractSynthRows loads _ y hy with ⟨a, t, hy', ha, ht⟩
    exact ⟨a, t, hy', Or.inl ⟨ha, ht⟩⟩
  simp only [generateSyntheticForOneQuestion] at hr
  split at hr
  · split at hr
    · exact hmapcase _ r (List.take_subset _ _ hr)
    · split at hr
      · rcases List.mem_append.mp hr with h | h
        · exact hmapcase _ r h
        · exact hmapcase _ r h
      · exact hmapcase _ r hr
  · split at hr
    · exact hextractcase r (List.take_subset _ _ hr)
    · split at hr
      · rcases List.mem_append.mp hr with h | h
        · exact hextractcase r h
        · exact hmapcase _ r h
      · exact hextractcase r hr

theorem generateSynthetic_row_shape_witness :
    ∃ a t, fallbackSynthRow (("f").data) (("q").data) 1 = mkSynthRow a t ∧
      ((pyStrip a = a ∧ pyStrip t = t) ∨
        ∃ i, a = fallbackAnswer i ∧
          t = fallbackText (("f").data) (("q").data) i) :=
  generateSynthetic_row_shape emptyGw failLoads (("f").data) (("q").data) 1
    (fallbackSynthRow (("f").data) (("q").data) 1) (by decide)
